import Mathlib

/-!
# Verification of the springy damped-spring solver core

Shallow embedding of `src/lib.rs` of the `springy` crate.

Modelling conventions:
* `f32` values are idealised as real numbers (`ℝ`).  IEEE-754 special
  values (`inf`, `NaN`) are not part of the value domain; the one place in
  the core where the Rust code can hit them — the reduced-mass division
  `1.0 / (inv_a + inv_b)` when both inverse masses are zero — is analysed
  through its explicitly exposed denominator (`Particle.inverseMass` sums).
* `glam`'s `Vec2`/`Vec3` become structures of real components; their
  `length` is the exact Euclidean norm via `Real.sqrt`, and
  `normalize_or_zero` keeps glam's "reciprocal of length is positive"
  guard (the `is_finite` half of glam's guard is vacuous over `ℝ`).
* Rust `f32::clamp(lo, hi)` is `clampR x lo hi = min (max x lo) hi`.
* The generic trait `Springable` becomes a type class with one operation
  per trait method; the three impls (`f32`, `Vec2`, `Vec3`) become the
  three instances below, translated method by method.
* The stateful methods (`SpringState::impulse`, `SpringBreak::impulse`)
  mutate `self` in Rust; here they return the updated record alongside
  their Rust return value.
-/

namespace Springy

noncomputable section

/-- Rust `f32::clamp(self, lo, hi)` (for `lo ≤ hi`, which is the only way
the source calls it): `min (max x lo) hi`. -/
def clampR (x lo hi : ℝ) : ℝ := min (max x lo) hi

/-- The `Springable` trait of `lib.rs` (lines 120-136): the algebraic
capability set the spring math is generic over.  `smul` is the
`Mul<f32>` bound, the remaining fields are the trait methods. -/
class Springable (S : Type) where
  sadd : S → S → S
  ssub : S → S → S
  sneg : S → S
  smul : S → ℝ → S
  slength : S → ℝ
  snormalizeOrZero : S → S
  sdot : S → S → ℝ

export Springable (sadd ssub sneg smul slength snormalizeOrZero sdot)

/-- `impl Springable for f32` (lib.rs lines 138-148): the length is the
signed identity and `springable_normalize_or_zero` is the constant `1.0`. -/
instance : Springable ℝ where
  sadd x y := x + y
  ssub x y := x - y
  sneg x := -x
  smul x c := x * c
  slength x := x
  snormalizeOrZero _ := 1
  sdot x y := x * y

/-- `glam::Vec2`, with real components. -/
structure Vec2 where
  x : ℝ
  y : ℝ

namespace Vec2

def add (a b : Vec2) : Vec2 := ⟨a.x + b.x, a.y + b.y⟩

def sub (a b : Vec2) : Vec2 := ⟨a.x - b.x, a.y - b.y⟩

def neg (a : Vec2) : Vec2 := ⟨-a.x, -a.y⟩

def smul (a : Vec2) (c : ℝ) : Vec2 := ⟨a.x * c, a.y * c⟩

def dot (a b : Vec2) : ℝ := a.x * b.x + a.y * b.y

def length (a : Vec2) : ℝ := Real.sqrt (a.x * a.x + a.y * a.y)

/-- `glam`'s `normalize_or_zero`: multiply by the reciprocal length when
that reciprocal is positive (and finite — vacuous over `ℝ`), otherwise
return the zero vector. -/
def normalizeOrZero (a : Vec2) : Vec2 :=
  let rcp := 1 / a.length
  if 0 < rcp then a.smul rcp else ⟨0, 0⟩

end Vec2

/-- `impl Springable for Vec2` (lib.rs lines 150-160). -/
instance : Springable Vec2 where
  sadd := Vec2.add
  ssub := Vec2.sub
  sneg := Vec2.neg
  smul := Vec2.smul
  slength := Vec2.length
  snormalizeOrZero := Vec2.normalizeOrZero
  sdot := Vec2.dot

/-- `glam::Vec3`, with real components. -/
structure Vec3 where
  x : ℝ
  y : ℝ
  z : ℝ

namespace Vec3

def add (a b : Vec3) : Vec3 := ⟨a.x + b.x, a.y + b.y, a.z + b.z⟩

def sub (a b : Vec3) : Vec3 := ⟨a.x - b.x, a.y - b.y, a.z - b.z⟩

def neg (a : Vec3) : Vec3 := ⟨-a.x, -a.y, -a.z⟩

def smul (a : Vec3) (c : ℝ) : Vec3 := ⟨a.x * c, a.y * c, a.z * c⟩

def dot (a b : Vec3) : ℝ := a.x * b.x + a.y * b.y + a.z * b.z

def length (a : Vec3) : ℝ := Real.sqrt (a.x * a.x + a.y * a.y + a.z * a.z)

/-- `glam`'s `normalize_or_zero` for `Vec3`. -/
def normalizeOrZero (a : Vec3) : Vec3 :=
  let rcp := 1 / a.length
  if 0 < rcp then a.smul rcp else ⟨0, 0, 0⟩

end Vec3

/-- `impl Springable for Vec3` (lib.rs lines 162-172). -/
instance : Springable Vec3 where
  sadd := Vec3.add
  ssub := Vec3.sub
  sneg := Vec3.neg
  smul := Vec3.smul
  slength := Vec3.length
  snormalizeOrZero := Vec3.normalizeOrZero
  sdot := Vec3.dot

/-- `Spring` (lib.rs lines 15-37). -/
structure Spring where
  strength : ℝ
  dampRatio : ℝ
  restDistance : ℝ
  limpDistance : ℝ

/-- `Particle` (lib.rs lines 107-118).  The Rust doc on `mass` says
"set to 0.0 or f32::INFINITY to set to `static`"; over `ℝ` the static
(infinite-inertia) encoding is `mass = 0`. -/
structure Particle (S : Type) where
  mass : ℝ
  position : S
  velocity : S

/-- `Particle::inverse_mass` (lib.rs lines 178-184):
`if self.mass != 0.0 { 1.0 / self.mass } else { 0.0 }`. -/
def Particle.inverseMass {S : Type} (p : Particle S) : ℝ :=
  if p.mass ≠ 0 then 1 / p.mass else 0

/-- `Spring::strength()` (lib.rs line 236-238): `strength.clamp(0.0, 1.0)`. -/
def Spring.strengthClamp (s : Spring) : ℝ := clampR s.strength 0 1

/-- `Spring::damp_ratio()` (lib.rs line 240-242): `damp_ratio.clamp(0.0, 20.0)`. -/
def Spring.dampRatioClamp (s : Spring) : ℝ := clampR s.dampRatio 0 20

/-- The `damping` local of `Spring::impulse` (lib.rs line 280):
`self.damp_ratio() * 2.0 * self.strength().sqrt()`. -/
def Spring.damping (s : Spring) : ℝ :=
  s.dampRatioClamp * 2 * Real.sqrt s.strengthClamp

/-- The `distance_length` local of `Spring::impulse` (lib.rs lines 268-272):
zero while the limp distance exceeds the (signed, for scalars) length,
otherwise length minus rest distance. -/
def Spring.distanceLength {S : Type} [Springable S] (s : Spring) (distance : S) : ℝ :=
  if s.limpDistance > slength distance then 0
  else slength distance - s.restDistance

/-- The `distance_error` local of `Spring::impulse` (lib.rs line 275):
`unit_vector * distance_length`. -/
def Spring.distanceError {S : Type} [Springable S] (s : Spring) (distance : S) : S :=
  smul (snormalizeOrZero distance) (s.distanceLength distance)

/-- The `reduced_mass` local of `Spring::impulse` (lib.rs line 278):
`1.0 / (particle_a.inverse_mass() + particle_b.inverse_mass())`.
The denominator is exposed so that the division-by-zero analysis (both
endpoints static) can name it. -/
def reducedMass {S : Type} (pa pb : Particle S) : ℝ :=
  1 / (pa.inverseMass + pb.inverseMass)

/-- The `velocity_vector` local of `Spring::impulse` (lib.rs line 274):
`last_impulse_unit.unwrap_or(unit_vector)`. -/
def velocityVector {S : Type} (lastImpulseUnit : Option S) (unitVector : S) : S :=
  lastImpulseUnit.getD unitVector

/-- The `distance_impulse` local of `Spring::impulse` (lib.rs line 282):
`distance_error * self.strength() * inverse_timestep * reduced_mass`
(left-associated `Mul<f32>` applications). -/
def Spring.distanceImpulse {S : Type} [Springable S] (s : Spring) (timestep : ℝ)
    (pa pb : Particle S) : S :=
  smul (smul (smul (s.distanceError (ssub pb.position pa.position))
    s.strengthClamp) (1 / timestep)) (reducedMass pa pb)

/-- The `velocity_impulse` local of `Spring::impulse` (lib.rs line 283):
`velocity_error * damping.clamp(0.0, 1.0) * reduced_mass`, where
`velocity_error = velocity_vector * velocity.springable_dot(velocity_vector)`
(lib.rs line 276). -/
def Spring.velocityImpulse {S : Type} [Springable S] (s : Spring)
    (pa pb : Particle S) (lastImpulseUnit : Option S) : S :=
  let velocity := ssub pb.velocity pa.velocity
  let unitVector := snormalizeOrZero (ssub pb.position pa.position)
  let vv := velocityVector lastImpulseUnit unitVector
  let velocityError := smul vv (sdot velocity vv)
  smul (smul velocityError (clampR s.damping 0 1)) (reducedMass pa pb)

/-- `Spring::impulse` (lib.rs lines 249-287): the pure impulse formula.
Returns the impulse together with the current displacement unit vector
(for the caller to store as the next `last_unit_vector`). -/
def Spring.impulse {S : Type} [Springable S] (s : Spring) (timestep : ℝ)
    (pa pb : Particle S) (lastImpulseUnit : Option S) : S × S :=
  let distance := ssub pb.position pa.position
  let unitVector := snormalizeOrZero distance
  let impulse := sneg (sadd (s.distanceImpulse timestep pa pb)
    (s.velocityImpulse pa pb lastImpulseUnit))
  (impulse, unitVector)

/-- `SpringBreak` (lib.rs lines 65-80). -/
structure SpringBreak where
  tear : ℝ
  tearForce : ℝ
  tearStep : ℝ
  healStep : ℝ

/-- `impl Default for SpringBreak` (lib.rs lines 82-91). -/
def SpringBreak.default : SpringBreak :=
  { tear := 0, tearForce := 1, tearStep := 1 / 100, healStep := 1 / 100 }

/-- `SpringBreak::impulse` (lib.rs lines 93-105).  Rust mutates `self`
and returns a `bool`; here it returns the updated record and the flag:
step the tear up by `tear_step` when the (signed, for scalars) impulse
length reaches `tear_force`, else heal by `heal_step`; clamp to `[0,1]`;
report broken when the clamped tear reached `1.0`. -/
def SpringBreak.impulse {S : Type} [Springable S] (b : SpringBreak) (impulse : S) :
    SpringBreak × Bool :=
  let impulseLength := slength impulse
  let tear1 := if impulseLength ≥ b.tearForce then b.tear + b.tearStep
    else b.tear - b.healStep
  let tear2 := clampR tear1 0 1
  ({ b with tear := tear2 }, if tear2 ≥ 1 then true else false)

/-- `SpringState` (lib.rs lines 39-50). -/
structure SpringState (S : Type) where
  lastUnitVector : Option S
  breaking : Option SpringBreak
  spring : Spring

/-- `SpringState::new` (lib.rs lines 56-62). -/
def SpringState.new {S : Type} (spring : Spring) : SpringState S :=
  { lastUnitVector := none, breaking := none, spring := spring }

/-- `SpringResult` (lib.rs lines 195-201). -/
inductive SpringResult (S : Type) where
  | Impulse : S → SpringResult S
  | Broke : S → SpringResult S
deriving DecidableEq

/-- `SpringState::impulse` (lib.rs lines 207-233).  Rust mutates `self`;
here the updated state is returned alongside the `SpringResult`:
evaluate the spring with the stored `last_unit_vector`, store the fresh
unit vector back, feed the impulse to the break sub-state when present,
and report `Broke` exactly when that sub-state fired. -/
def SpringState.impulse {S : Type} [Springable S] (st : SpringState S)
    (timestep : ℝ) (pa pb : Particle S) : SpringResult S × SpringState S :=
  let r := st.spring.impulse timestep pa pb st.lastUnitVector
  let st1 := { st with lastUnitVector := some r.2 }
  match st1.breaking with
  | some breaking =>
    let br := breaking.impulse r.1
    let st2 := { st1 with breaking := some br.1 }
    (if br.2 then SpringResult.Broke r.1 else SpringResult.Impulse r.1, st2)
  | none => (SpringResult.Impulse r.1, st1)

/-- Folding `SpringBreak::impulse` over a whole sequence of impulse
inputs (the per-frame drive of the tear state machine). -/
def SpringBreak.run {S : Type} [Springable S] (b : SpringBreak) (inputs : List S) :
    SpringBreak :=
  inputs.foldl (fun acc i => (acc.impulse i).1) b

/-! ## Unfolding lemmas for the three `Springable` instances -/

@[simp] theorem sadd_real (x y : ℝ) : sadd x y = x + y := rfl

@[simp] theorem ssub_real (x y : ℝ) : ssub x y = x - y := rfl

@[simp] theorem sneg_real (x : ℝ) : sneg x = -x := rfl

@[simp] theorem smul_real (x c : ℝ) : smul x c = x * c := rfl

@[simp] theorem slength_real (x : ℝ) : slength x = x := rfl

@[simp] theorem snormalizeOrZero_real (x : ℝ) : snormalizeOrZero x = 1 := rfl

@[simp] theorem sdot_real (x y : ℝ) : sdot x y = x * y := rfl

@[simp] theorem sadd_vec2 (a b : Vec2) : sadd a b = Vec2.add a b := rfl

@[simp] theorem ssub_vec2 (a b : Vec2) : ssub a b = Vec2.sub a b := rfl

@[simp] theorem sneg_vec2 (a : Vec2) : sneg a = Vec2.neg a := rfl

@[simp] theorem smul_vec2 (a : Vec2) (c : ℝ) : smul a c = Vec2.smul a c := rfl

@[simp] theorem slength_vec2 (a : Vec2) : slength a = Vec2.length a := rfl

@[simp] theorem snormalizeOrZero_vec2 (a : Vec2) :
    snormalizeOrZero a = Vec2.normalizeOrZero a := rfl

@[simp] theorem sdot_vec2 (a b : Vec2) : sdot a b = Vec2.dot a b := rfl

@[simp] theorem sadd_vec3 (a b : Vec3) : sadd a b = Vec3.add a b := rfl

@[simp] theorem ssub_vec3 (a b : Vec3) : ssub a b = Vec3.sub a b := rfl

@[simp] theorem sneg_vec3 (a : Vec3) : sneg a = Vec3.neg a := rfl

@[simp] theorem smul_vec3 (a : Vec3) (c : ℝ) : smul a c = Vec3.smul a c := rfl

@[simp] theorem slength_vec3 (a : Vec3) : slength a = Vec3.length a := rfl

@[simp] theorem snormalizeOrZero_vec3 (a : Vec3) :
    snormalizeOrZero a = Vec3.normalizeOrZero a := rfl

@[simp] theorem sdot_vec3 (a b : Vec3) : sdot a b = Vec3.dot a b := rfl

/-! ## Helper lemmas -/

theorem clampR_mem (x lo hi : ℝ) (h : lo ≤ hi) :
    lo ≤ clampR x lo hi ∧ clampR x lo hi ≤ hi :=
  ⟨le_min (le_max_right x lo) h, min_le_right _ _⟩

theorem zero_vec2_length : Vec2.length ⟨0, 0⟩ = 0 := by
  unfold Vec2.length
  norm_num

theorem zero_vec3_length : Vec3.length ⟨0, 0, 0⟩ = 0 := by
  unfold Vec3.length
  norm_num

theorem vec2_normalizeOrZero_zero : Vec2.normalizeOrZero ⟨0, 0⟩ = ⟨0, 0⟩ := by
  unfold Vec2.normalizeOrZero
  rw [zero_vec2_length]
  norm_num

theorem vec3_normalizeOrZero_zero : Vec3.normalizeOrZero ⟨0, 0, 0⟩ = ⟨0, 0, 0⟩ := by
  unfold Vec3.normalizeOrZero
  rw [zero_vec3_length]
  norm_num

theorem vec2_smul_zero (c : ℝ) : Vec2.smul ⟨0, 0⟩ c = ⟨0, 0⟩ := by
  unfold Vec2.smul
  norm_num

/-- On the concrete scalar configuration used in the break-firing
scenario (strength `1`, damp ratio `0`, rest distance `20`, limp `0`,
timestep `1`, a static endpoint at `0` and a unit-mass endpoint at `5`,
both at rest) `Spring::impulse` returns the impulse `15` with unit
vector `1`, for any stored last unit vector. -/
theorem sprC2_eval (last : Option ℝ) :
    (Spring.mk 1 0 20 0).impulse 1 (Particle.mk 0 0 0) (Particle.mk 1 5 0)
      last = (15, 1) := by
  simp only [Spring.impulse, Spring.distanceImpulse, Spring.velocityImpulse,
    Spring.distanceError, Spring.distanceLength, Spring.strengthClamp,
    Spring.dampRatioClamp, Spring.damping, velocityVector, reducedMass,
    Particle.inverseMass, clampR]
  norm_num [max_def, min_def]

/-- Driving the break-carrying spring state
(`tear = 0, tear_force = 10, tear_step = 1/2, heal_step = 1/100`) once
with the impulse-`15` configuration: the result is `Impulse 15` and the
tear steps to `1/2`. -/
theorem stateC2_step1 :
    (SpringState.mk (none : Option ℝ)
        (some (SpringBreak.mk 0 10 (1 / 2) (1 / 100)))
        (Spring.mk 1 0 20 0)).impulse 1
      (Particle.mk 0 0 0) (Particle.mk 1 5 0) =
    (SpringResult.Impulse 15,
      SpringState.mk (some 1) (some (SpringBreak.mk (1 / 2) 10 (1 / 2) (1 / 100)))
        (Spring.mk 1 0 20 0)) := by
  simp only [SpringState.impulse, sprC2_eval, SpringBreak.impulse]
  norm_num [clampR, max_def, min_def]

/-- Second drive of the same state: the tear reaches `1` and the result
is the `Broke` variant. -/
theorem stateC2_step2 :
    (SpringState.mk (some (1 : ℝ))
        (some (SpringBreak.mk (1 / 2) 10 (1 / 2) (1 / 100)))
        (Spring.mk 1 0 20 0)).impulse 1
      (Particle.mk 0 0 0) (Particle.mk 1 5 0) =
    (SpringResult.Broke 15,
      SpringState.mk (some 1) (some (SpringBreak.mk 1 10 (1 / 2) (1 / 100)))
        (Spring.mk 1 0 20 0)) := by
  simp only [SpringState.impulse, sprC2_eval, SpringBreak.impulse]
  norm_num [clampR, max_def, min_def]

/-- Third drive: the tear stays clamped at `1` and the result is again
the `Broke` variant. -/
theorem stateC2_step3 :
    (SpringState.mk (some (1 : ℝ))
        (some (SpringBreak.mk 1 10 (1 / 2) (1 / 100)))
        (Spring.mk 1 0 20 0)).impulse 1
      (Particle.mk 0 0 0) (Particle.mk 1 5 0) =
    (SpringResult.Broke 15,
      SpringState.mk (some 1) (some (SpringBreak.mk 1 10 (1 / 2) (1 / 100)))
        (Spring.mk 1 0 20 0)) := by
  simp only [SpringState.impulse, sprC2_eval, SpringBreak.impulse]
  norm_num [clampR, max_def, min_def]

/-! ## Oddness of the vector kinematics under negation -/

theorem vec2_length_neg (a : Vec2) : (Vec2.neg a).length = a.length := by
  unfold Vec2.length Vec2.neg
  dsimp only
  congr 1
  ring

theorem vec2_sub_swap (a b : Vec2) : Vec2.sub a b = Vec2.neg (Vec2.sub b a) := by
  unfold Vec2.sub Vec2.neg
  dsimp only
  simp only [Vec2.mk.injEq]
  constructor <;> ring

theorem vec2_dot_neg_neg (a b : Vec2) :
    Vec2.dot (Vec2.neg a) (Vec2.neg b) = Vec2.dot a b := by
  unfold Vec2.dot Vec2.neg
  dsimp only
  ring

theorem vec2_smul_neg (a : Vec2) (c : ℝ) :
    Vec2.smul (Vec2.neg a) c = Vec2.neg (Vec2.smul a c) := by
  unfold Vec2.smul Vec2.neg
  dsimp only
  simp only [Vec2.mk.injEq]
  constructor <;> ring

theorem vec2_normalizeOrZero_neg (a : Vec2) :
    Vec2.normalizeOrZero (Vec2.neg a) = Vec2.neg (Vec2.normalizeOrZero a) := by
  simp only [Vec2.normalizeOrZero]
  rw [vec2_length_neg]
  split_ifs with h
  · exact vec2_smul_neg a _
  · unfold Vec2.neg
    norm_num

theorem vec2_velocityVector_neg (last : Option Vec2) (u : Vec2) :
    velocityVector (last.map Vec2.neg) (Vec2.neg u) =
      Vec2.neg (velocityVector last u) := by
  cases last <;> rfl

theorem vec3_length_neg (a : Vec3) : (Vec3.neg a).length = a.length := by
  unfold Vec3.length Vec3.neg
  dsimp only
  congr 1
  ring

theorem vec3_sub_swap (a b : Vec3) : Vec3.sub a b = Vec3.neg (Vec3.sub b a) := by
  unfold Vec3.sub Vec3.neg
  dsimp only
  simp only [Vec3.mk.injEq]
  refine ⟨by ring, by ring, by ring⟩

theorem vec3_dot_neg_neg (a b : Vec3) :
    Vec3.dot (Vec3.neg a) (Vec3.neg b) = Vec3.dot a b := by
  unfold Vec3.dot Vec3.neg
  dsimp only
  ring

theorem vec3_smul_neg (a : Vec3) (c : ℝ) :
    Vec3.smul (Vec3.neg a) c = Vec3.neg (Vec3.smul a c) := by
  unfold Vec3.smul Vec3.neg
  dsimp only
  simp only [Vec3.mk.injEq]
  refine ⟨by ring, by ring, by ring⟩

theorem vec3_normalizeOrZero_neg (a : Vec3) :
    Vec3.normalizeOrZero (Vec3.neg a) = Vec3.neg (Vec3.normalizeOrZero a) := by
  simp only [Vec3.normalizeOrZero]
  rw [vec3_length_neg]
  split_ifs with h
  · exact vec3_smul_neg a _
  · unfold Vec3.neg
    norm_num

theorem vec3_velocityVector_neg (last : Option Vec3) (u : Vec3) :
    velocityVector (last.map Vec3.neg) (Vec3.neg u) =
      Vec3.neg (velocityVector last u) := by
  cases last <;> rfl

theorem reducedMass_comm {S : Type} (pa pb : Particle S) :
    reducedMass pb pa = reducedMass pa pb := by
  unfold reducedMass
  rw [add_comm]

theorem vec2_distanceLength_neg (s : Spring) (d : Vec2) :
    s.distanceLength (Vec2.neg d) = s.distanceLength d := by
  unfold Spring.distanceLength
  simp only [slength_vec2]
  rw [vec2_length_neg]

theorem vec2_distanceError_neg (s : Spring) (d : Vec2) :
    s.distanceError (Vec2.neg d) = Vec2.neg (s.distanceError d) := by
  unfold Spring.distanceError
  simp only [smul_vec2, snormalizeOrZero_vec2]
  rw [vec2_distanceLength_neg, vec2_normalizeOrZero_neg, vec2_smul_neg]

theorem vec2_distanceImpulse_swap (s : Spring) (t : ℝ) (pa pb : Particle Vec2) :
    s.distanceImpulse t pb pa = Vec2.neg (s.distanceImpulse t pa pb) := by
  unfold Spring.distanceImpulse
  simp only [ssub_vec2, smul_vec2]
  rw [vec2_sub_swap pa.position pb.position, vec2_distanceError_neg,
    reducedMass_comm, vec2_smul_neg, vec2_smul_neg, vec2_smul_neg]

theorem vec2_velocityImpulse_swap (s : Spring) (pa pb : Particle Vec2)
    (last : Option Vec2) :
    s.velocityImpulse pb pa (last.map Vec2.neg) =
      Vec2.neg (s.velocityImpulse pa pb last) := by
  simp only [Spring.velocityImpulse, ssub_vec2, smul_vec2, sdot_vec2,
    snormalizeOrZero_vec2]
  rw [vec2_sub_swap pa.position pb.position,
    vec2_sub_swap pa.velocity pb.velocity, vec2_normalizeOrZero_neg,
    vec2_velocityVector_neg, vec2_dot_neg_neg, vec2_smul_neg, vec2_smul_neg,
    vec2_smul_neg, reducedMass_comm]

theorem vec3_distanceLength_neg (s : Spring) (d : Vec3) :
    s.distanceLength (Vec3.neg d) = s.distanceLength d := by
  unfold Spring.distanceLength
  simp only [slength_vec3]
  rw [vec3_length_neg]

theorem vec3_distanceError_neg (s : Spring) (d : Vec3) :
    s.distanceError (Vec3.neg d) = Vec3.neg (s.distanceError d) := by
  unfold Spring.distanceError
  simp only [smul_vec3, snormalizeOrZero_vec3]
  rw [vec3_distanceLength_neg, vec3_normalizeOrZero_neg, vec3_smul_neg]

theorem vec3_distanceImpulse_swap (s : Spring) (t : ℝ) (pa pb : Particle Vec3) :
    s.distanceImpulse t pb pa = Vec3.neg (s.distanceImpulse t pa pb) := by
  unfold Spring.distanceImpulse
  simp only [ssub_vec3, smul_vec3]
  rw [vec3_sub_swap pa.position pb.position, vec3_distanceError_neg,
    reducedMass_comm, vec3_smul_neg, vec3_smul_neg, vec3_smul_neg]

theorem vec3_velocityImpulse_swap (s : Spring) (pa pb : Particle Vec3)
    (last : Option Vec3) :
    s.velocityImpulse pb pa (last.map Vec3.neg) =
      Vec3.neg (s.velocityImpulse pa pb last) := by
  simp only [Spring.velocityImpulse, ssub_vec3, smul_vec3, sdot_vec3,
    snormalizeOrZero_vec3]
  rw [vec3_sub_swap pa.position pb.position,
    vec3_sub_swap pa.velocity pb.velocity, vec3_normalizeOrZero_neg,
    vec3_velocityVector_neg, vec3_dot_neg_neg, vec3_smul_neg, vec3_smul_neg,
    vec3_smul_neg, reducedMass_comm]

theorem vec2_impulse_swap (s : Spring) (t : ℝ) (pa pb : Particle Vec2)
    (last : Option Vec2) :
    (s.impulse t pb pa (last.map Vec2.neg)).1 =
      Vec2.neg ((s.impulse t pa pb last).1) := by
  simp only [Spring.impulse]
  rw [vec2_distanceImpulse_swap, vec2_velocityImpulse_swap]
  simp only [sneg_vec2, sadd_vec2]
  unfold Vec2.neg Vec2.add
  dsimp only
  simp only [Vec2.mk.injEq]
  constructor <;> ring

theorem vec3_impulse_swap (s : Spring) (t : ℝ) (pa pb : Particle Vec3)
    (last : Option Vec3) :
    (s.impulse t pb pa (last.map Vec3.neg)).1 =
      Vec3.neg ((s.impulse t pa pb last).1) := by
  simp only [Spring.impulse]
  rw [vec3_distanceImpulse_swap, vec3_velocityImpulse_swap]
  simp only [sneg_vec3, sadd_vec3]
  unfold Vec3.neg Vec3.add
  dsimp only
  simp only [Vec3.mk.injEq]
  refine ⟨by ring, by ring, by ring⟩

/-! ## Claim theorems -/

/-- C1: the claim says a spring between two infinite-inertia endpoints
(`mass = 0` encodes static) produces the zero impulse with no division by
zero.  In the code both inverse masses evaluate to zero, so the
`reduced_mass` computation `1.0 / (inverse_mass_a + inverse_mass_b)` at
lib.rs line 278 divides by a zero denominator — under IEEE-754 `f32`
semantics that division yields `+inf` and the resulting impulse is
`NaN`/`±inf`, never the zero value.  This theorem evaluates the code's
embedding at the failing input (both masses zero, displacement 5,
timestep 1): each endpoint's inverse mass is zero and the reduced-mass
divisor is exactly zero. -/
theorem double_infinite_reduced_mass_divides_by_zero :
    (Particle.mk 0 (0 : ℝ) 0).inverseMass = 0 ∧
    (Particle.mk 0 (5 : ℝ) 0).inverseMass = 0 ∧
    (Particle.mk 0 (0 : ℝ) 0).inverseMass + (Particle.mk 0 (5 : ℝ) 0).inverseMass = 0 ∧
    reducedMass (Particle.mk 0 (0 : ℝ) 0) (Particle.mk 0 (5 : ℝ) 0) = 1 / (0 : ℝ) := by
  unfold reducedMass Particle.inverseMass
  norm_num

/-- C10: for the scalar instantiation `springable_length` is the signed
identity, so feeding `SpringBreak::impulse` a negative impulse of large
magnitude (here `-100` against `tear_force = 1`) takes the heal branch
(`tear -= heal_step`, then clamp) rather than the tear branch; with the
default-like parameters the tear strictly decreases from `1/2` to
`49/100`. -/
theorem scalar_length_signed_negative_impulse_heals :
    (∀ x : ℝ, slength x = x) ∧
    (∀ tear ts hs : ℝ,
      ((SpringBreak.mk tear 1 ts hs).impulse (-100 : ℝ)).1.tear =
        clampR (tear - hs) 0 1) ∧
    ((SpringBreak.mk (1 / 2) 1 (1 / 100) (1 / 100)).impulse (-100 : ℝ)).1.tear =
      49 / 100 := by
  refine ⟨fun x => rfl, fun tear ts hs => ?_, ?_⟩
  · unfold SpringBreak.impulse
    norm_num
  · unfold SpringBreak.impulse clampR
    norm_num

/-- C4 counterexample: the claim says `normalize_or_zero` returns the
zero value on a zero-length input for every kinematic type, but the
`f32` implementation (lib.rs line 142-144) is the constant `1.0`: at the
zero scalar (whose length is zero) it returns `1 ≠ 0`. -/
theorem scalar_normalize_or_zero_at_zero_counterexample :
    slength (0 : ℝ) = 0 ∧ snormalizeOrZero (0 : ℝ) = 1 ∧ (1 : ℝ) ≠ 0 := by
  norm_num

/-- C4 amended: for the Euclidean vector instantiations (`Vec2`,
`Vec3`) `normalize_or_zero` of the zero-length value is the zero vector
(no division is performed because the reciprocal-length guard fails),
while the scalar instantiation returns the constant `1.0`; consequently,
under zero relative displacement the distance term
(`distance_impulse`) of the impulse is the zero vector for the vector
instantiations, for every spring, timestep, masses and velocities. -/
theorem normalize_or_zero_amended :
    Vec2.normalizeOrZero ⟨0, 0⟩ = ⟨0, 0⟩ ∧
    Vec3.normalizeOrZero ⟨0, 0, 0⟩ = ⟨0, 0, 0⟩ ∧
    snormalizeOrZero (0 : ℝ) = 1 ∧
    (∀ (s : Spring) (t ma mb : ℝ) (p va vb : Vec2),
      s.distanceImpulse t (Particle.mk ma p va) (Particle.mk mb p vb) =
        (⟨0, 0⟩ : Vec2)) := by
  refine ⟨vec2_normalizeOrZero_zero, vec3_normalizeOrZero_zero, rfl, ?_⟩
  intro s t ma mb p va vb
  unfold Spring.distanceImpulse Spring.distanceError
  simp only [ssub_vec2, smul_vec2, snormalizeOrZero_vec2]
  have hsub : Vec2.sub p p = ⟨0, 0⟩ := by
    unfold Vec2.sub
    norm_num
  rw [hsub, vec2_normalizeOrZero_zero, vec2_smul_zero, vec2_smul_zero,
    vec2_smul_zero, vec2_smul_zero]

/-- C3 counterexample: the claim says the scalar distance error is
`max(0, |d| - rest_distance)` when `|d| ≥ limp_distance` (so never
negative), but the code (lib.rs lines 268-272) computes
`length - rest_distance` with no lower clamp: with
`rest_distance = 5`, `limp_distance = 0` and scalar displacement `3`
the code's error is `-2` while the claimed formula gives `0`. -/
theorem distance_error_clamp_counterexample :
    (Spring.mk 1 0 5 0).distanceLength (3 : ℝ) = -2 ∧
    max 0 (|(3 : ℝ)| - 5) = 0 ∧ (-2 : ℝ) ≠ 0 := by
  unfold Spring.distanceLength
  norm_num

/-- C3 amended: the scalar distance error equals
`springable_length(d) - rest_distance` whenever
`limp_distance ≤ springable_length(d)` and `0` otherwise, with no lower
clamp at zero — it may be as negative as `-rest_distance` (the
outward push when closer than rest).  Stated for the 2D vector
instantiation, where `springable_length` is the Euclidean norm `|d|`,
under the documented parameter range `0 ≤ rest_distance`. -/
theorem distance_error_amended (s : Spring) (d : Vec2)
    (hrest : 0 ≤ s.restDistance) :
    (s.limpDistance ≤ Vec2.length d →
      s.distanceLength d = Vec2.length d - s.restDistance) ∧
    (Vec2.length d < s.limpDistance → s.distanceLength d = 0) ∧
    -s.restDistance ≤ s.distanceLength d := by
  unfold Spring.distanceLength
  simp only [slength_vec2]
  split_ifs with h
  · refine ⟨fun hle => absurd h (not_lt.mpr hle), fun _ => rfl, ?_⟩
    linarith
  · push_neg at h
    have hd : 0 ≤ Vec2.length d := Real.sqrt_nonneg _
    exact ⟨fun _ => rfl, fun hlt => absurd hlt (not_lt.mpr h), by linarith⟩

/-- C3 witness: the amended statement instantiated at
`rest_distance = 2`, `limp_distance = 1`, displacement `(3,4)` (length
`5`): the error evaluates to `3`. -/
theorem distance_error_amended_witness :
    0 ≤ (Spring.mk 1 0 2 1).restDistance ∧
    (Spring.mk 1 0 2 1).distanceLength (Vec2.mk 3 4) = 3 := by
  have h5 : Vec2.length ⟨3, 4⟩ = 5 := by
    unfold Vec2.length
    rw [show (3 : ℝ) * 3 + 4 * 4 = 5 ^ 2 by norm_num]
    exact Real.sqrt_sq (by norm_num)
  refine ⟨by norm_num, ?_⟩
  have := (distance_error_amended (Spring.mk 1 0 2 1) ⟨3, 4⟩ (by norm_num)).1
    (by rw [h5]; norm_num)
  rw [this, h5]
  norm_num

/-- C2 counterexample: the claim says the first two evaluations of
`SpringState::impulse` return `Impulse` and the third returns `Broke`.
With `tear` starting at the default `0`, `tear_force = 10`,
`tear_step = 1/2`, `heal_step = 1/100` and consecutive impulses of
magnitude `15` (produced here by a concrete particle pair), the tear
steps `0 → 1/2 → 1`, so it is already the second evaluation that
returns the `Broke` variant. -/
theorem break_fires_counterexample :
    ((SpringState.mk (none : Option ℝ)
        (some (SpringBreak.mk 0 10 (1 / 2) (1 / 100)))
        (Spring.mk 1 0 20 0)).impulse 1
      (Particle.mk 0 0 0) (Particle.mk 1 5 0)).1 = SpringResult.Impulse 15 ∧
    (((SpringState.mk (none : Option ℝ)
        (some (SpringBreak.mk 0 10 (1 / 2) (1 / 100)))
        (Spring.mk 1 0 20 0)).impulse 1
      (Particle.mk 0 0 0) (Particle.mk 1 5 0)).2.impulse 1
      (Particle.mk 0 0 0) (Particle.mk 1 5 0)).1 = SpringResult.Broke 15 := by
  rw [stateC2_step1]
  exact ⟨rfl, by rw [stateC2_step2]⟩

/-- C2 amended: starting from the default `tear = 0`, a
`SpringBreak{tear_force = 10, tear_step = 1/2, heal_step = 1/100}`
driven by consecutive impulses of magnitude `15` through
`SpringState::impulse` reaches `tear ≥ 1.0` at the second impulse: the
first evaluation returns `Impulse`, and it is the second evaluation
that returns the `Broke` variant (every later evaluation under the same
drive, the third included, also returns `Broke` with the tear clamped
at `1`). -/
theorem break_fires_amended :
    ((SpringState.mk (none : Option ℝ)
        (some (SpringBreak.mk 0 10 (1 / 2) (1 / 100)))
        (Spring.mk 1 0 20 0)).impulse 1
      (Particle.mk 0 0 0) (Particle.mk 1 5 0)) =
      (SpringResult.Impulse 15,
        SpringState.mk (some 1)
          (some (SpringBreak.mk (1 / 2) 10 (1 / 2) (1 / 100)))
          (Spring.mk 1 0 20 0)) ∧
    ((SpringState.mk (some (1 : ℝ))
        (some (SpringBreak.mk (1 / 2) 10 (1 / 2) (1 / 100)))
        (Spring.mk 1 0 20 0)).impulse 1
      (Particle.mk 0 0 0) (Particle.mk 1 5 0)) =
      (SpringResult.Broke 15,
        SpringState.mk (some 1)
          (some (SpringBreak.mk 1 10 (1 / 2) (1 / 100)))
          (Spring.mk 1 0 20 0)) ∧
    ((SpringState.mk (some (1 : ℝ))
        (some (SpringBreak.mk 1 10 (1 / 2) (1 / 100)))
        (Spring.mk 1 0 20 0)).impulse 1
      (Particle.mk 0 0 0) (Particle.mk 1 5 0)).1 = SpringResult.Broke 15 ∧
    (1 : ℝ) ≥ 1 :=
  ⟨stateC2_step1, stateC2_step2, by rw [stateC2_step3], le_refl 1⟩

/-- C5: rest stability.  For every `strength` and `damp_ratio` (the
remaining spring parameters at their defaults `rest_distance =
limp_distance = 0`), any stored last unit vector, any masses and any
timestep, when the two endpoints share position and velocity (zero
relative displacement and velocity) `Spring::impulse` returns exactly
the zero value — for both the scalar and the 2D vector instantiation. -/
theorem rest_stability (strength dampR t ma mb : ℝ) (p v : ℝ)
    (pV vV : Vec2) (lastS : Option ℝ) (lastV : Option Vec2) :
    ((Spring.mk strength dampR 0 0).impulse t (Particle.mk ma p v)
      (Particle.mk mb p v) lastS).1 = 0 ∧
    ((Spring.mk strength dampR 0 0).impulse t (Particle.mk ma pV vV)
      (Particle.mk mb pV vV) lastV).1 = (⟨0, 0⟩ : Vec2) := by
  constructor
  · unfold Spring.impulse Spring.distanceImpulse Spring.velocityImpulse
      Spring.distanceError Spring.distanceLength velocityVector
    simp
  · unfold Spring.impulse Spring.distanceImpulse Spring.velocityImpulse
      Spring.distanceError velocityVector
    simp only [ssub_vec2, smul_vec2, sneg_vec2, sadd_vec2, sdot_vec2,
      snormalizeOrZero_vec2]
    have hsub : Vec2.sub pV pV = ⟨0, 0⟩ := by
      unfold Vec2.sub
      norm_num
    have hsubv : Vec2.sub vV vV = ⟨0, 0⟩ := by
      unfold Vec2.sub
      norm_num
    rw [hsub, hsubv, vec2_normalizeOrZero_zero, vec2_smul_zero, vec2_smul_zero,
      vec2_smul_zero, vec2_smul_zero]
    have hdot : ∀ w : Vec2, Vec2.dot ⟨0, 0⟩ w = 0 := by
      intro w
      unfold Vec2.dot
      norm_num
    rw [hdot]
    have hsm : ∀ w : Vec2, Vec2.smul w 0 = ⟨0, 0⟩ := by
      intro w
      unfold Vec2.smul
      norm_num
    rw [hsm, vec2_smul_zero, vec2_smul_zero]
    unfold Vec2.add Vec2.neg
    norm_num

/-- C7: `SpringState::new` stores `last_unit_vector = None`; every call
to `SpringState::impulse` stores `Some` of the current displacement's
`normalize_or_zero`; and the damping direction
(`velocity_vector = last_impulse_unit.unwrap_or(unit_vector)`)
is the previously stored unit vector, falling back to the current one
only when no previous value exists. -/
theorem last_unit_vector_lifecycle {S : Type} [Springable S] (sp : Spring)
    (st : SpringState S) (t : ℝ) (pa pb : Particle S) (w u : S) :
    (SpringState.new sp : SpringState S).lastUnitVector = none ∧
    (st.impulse t pa pb).2.lastUnitVector =
      some (snormalizeOrZero (ssub pb.position pa.position)) ∧
    velocityVector (some w) u = w ∧
    velocityVector (none : Option S) u = u := by
  refine ⟨rfl, ?_, rfl, rfl⟩
  unfold SpringState.impulse Spring.impulse
  cases st.breaking <;> simp

/-- One step of the tear state machine always lands in `[0, 1]`
(the update ends in `clamp(_, 0.0, 1.0)`). -/
theorem impulse_tear_mem {S : Type} [Springable S] (b : SpringBreak) (x : S) :
    0 ≤ ((b.impulse x).1).tear ∧ ((b.impulse x).1).tear ≤ 1 := by
  simp only [SpringBreak.impulse]
  exact clampR_mem _ 0 1 (by norm_num)

theorem run_cons {S : Type} [Springable S] (b : SpringBreak) (x : S)
    (xs : List S) :
    SpringBreak.run b (x :: xs) = SpringBreak.run ((b.impulse x).1) xs := rfl

theorem run_tear_mem {S : Type} [Springable S] (xs : List S) (b : SpringBreak)
    (h0 : 0 ≤ b.tear) (h1 : b.tear ≤ 1) :
    0 ≤ (SpringBreak.run b xs).tear ∧ (SpringBreak.run b xs).tear ≤ 1 := by
  induction xs generalizing b with
  | nil => exact ⟨h0, h1⟩
  | cons x xs ih =>
    rw [run_cons]
    exact ih _ (impulse_tear_mem b x).1 (impulse_tear_mem b x).2

theorem run_tear_mem_of_ne_nil {S : Type} [Springable S] (l : List S)
    (b : SpringBreak) (h : l ≠ []) :
    0 ≤ (SpringBreak.run b l).tear ∧ (SpringBreak.run b l).tear ≤ 1 := by
  cases l with
  | nil => exact absurd rfl h
  | cons x xs =>
    rw [run_cons]
    exact run_tear_mem xs _ (impulse_tear_mem b x).1 (impulse_tear_mem b x).2

/-- C6: for every `SpringBreak` within its documented ranges
(`tear ∈ [0,1]`, nonnegative steps) and every impulse input, the updated
tear stays within `[0,1]` — and stays there along any nonempty sequence
of updates; the tear moves up to `clamp(tear + tear_step, 0, 1)`
(a non-decrease) exactly when the step's impulse length is at least
`tear_force`, and moves down to `clamp(tear - heal_step, 0, 1)`
(a non-increase) exactly when the impulse length is below
`tear_force`. -/
theorem tear_clamped_monotone {S : Type} [Springable S] (b : SpringBreak)
    (x : S) (h0 : 0 ≤ b.tear) (h1 : b.tear ≤ 1)
    (hts : 0 ≤ b.tearStep) (hhs : 0 ≤ b.healStep) :
    (0 ≤ ((b.impulse x).1).tear ∧ ((b.impulse x).1).tear ≤ 1) ∧
    (slength x ≥ b.tearForce →
      ((b.impulse x).1).tear = clampR (b.tear + b.tearStep) 0 1 ∧
      b.tear ≤ ((b.impulse x).1).tear) ∧
    (slength x < b.tearForce →
      ((b.impulse x).1).tear = clampR (b.tear - b.healStep) 0 1 ∧
      ((b.impulse x).1).tear ≤ b.tear) ∧
    (∀ l : List S, l ≠ [] →
      0 ≤ (SpringBreak.run b l).tear ∧ (SpringBreak.run b l).tear ≤ 1) := by
  refine ⟨impulse_tear_mem b x, ?_, ?_, fun l hl => run_tear_mem_of_ne_nil l b hl⟩
  · intro h
    simp only [SpringBreak.impulse]
    rw [if_pos h]
    refine ⟨rfl, ?_⟩
    unfold clampR
    exact le_min (le_trans (le_add_of_nonneg_right hts) (le_max_left _ _)) h1
  · intro h
    simp only [SpringBreak.impulse]
    rw [if_neg (not_le.mpr h)]
    refine ⟨rfl, ?_⟩
    unfold clampR
    calc min (max (b.tear - b.healStep) 0) 1 ≤ max (b.tear - b.healStep) 0 :=
        min_le_left _ _
      _ ≤ b.tear := max_le (by linarith) h0

/-- C6 witness: the default-like break record
(`tear = 0, tear_force = 1, steps = 1/100`) hit by the scalar impulse
`2` takes the tear branch. -/
theorem tear_clamped_monotone_witness :
    (0 : ℝ) ≤ 0 ∧ (0 : ℝ) ≤ 1 ∧ (0 : ℝ) ≤ 1 / 100 ∧
    ((SpringBreak.mk 0 1 (1 / 100) (1 / 100)).impulse (2 : ℝ)).1.tear =
      clampR (0 + 1 / 100) 0 1 :=
  ⟨le_refl 0, by norm_num, by norm_num,
    ((tear_clamped_monotone (SpringBreak.mk 0 1 (1 / 100) (1 / 100)) (2 : ℝ)
      (le_refl 0) (by norm_num) (by norm_num) (by norm_num)).2.1
      (by norm_num)).1⟩

/-- C8 counterexample: endpoint-swap oddness fails for the scalar
instantiation.  With strength `1`, no damping, zero rest/limp distances,
timestep `1`, unit-mass endpoints at scalar positions `0` and `5` (at
rest) and no stored unit vector: `impulse(A,B) = -(5/2)` but the
swapped call hits the `limp_distance > springable_length` branch (the
scalar length is signed, `-5 < 0`) and returns `0 ≠ -(-(5/2))`. -/
theorem impulse_odd_counterexample :
    ((Spring.mk 1 0 0 0).impulse 1 (Particle.mk 1 (0 : ℝ) 0)
      (Particle.mk 1 5 0) none).1 = -(5 / 2) ∧
    ((Spring.mk 1 0 0 0).impulse 1 (Particle.mk 1 (5 : ℝ) 0)
      (Particle.mk 1 0 0) none).1 = 0 ∧
    (0 : ℝ) ≠ -(-(5 / 2)) := by
  refine ⟨?_, ?_, by norm_num⟩ <;>
  · simp only [Spring.impulse, Spring.distanceImpulse, Spring.velocityImpulse,
      Spring.distanceError, Spring.distanceLength, Spring.strengthClamp,
      Spring.dampRatioClamp, Spring.damping, velocityVector, reducedMass,
      Particle.inverseMass, clampR]
    norm_num [max_def, min_def]

/-- C8 amended: for the Euclidean vector instantiations (`Vec2` and
`Vec3`), `Spring::impulse` is odd under endpoint swap: for every spring,
timestep, pair of particles and stored unit vector negated consistently
with the swap (or absent), the swapped call returns exactly the negation
of the original impulse.  The scalar instantiation violates this
(signed length and constant unit vector), per the counterexample. -/
theorem impulse_odd_amended (s : Spring) (t : ℝ) (pa pb : Particle Vec2)
    (last : Option Vec2) (pa3 pb3 : Particle Vec3) (last3 : Option Vec3) :
    (s.impulse t pb pa (last.map Vec2.neg)).1 =
      Vec2.neg ((s.impulse t pa pb last).1) ∧
    (s.impulse t pb3 pa3 (last3.map Vec3.neg)).1 =
      Vec3.neg ((s.impulse t pa3 pb3 last3).1) :=
  ⟨vec2_impulse_swap s t pa pb last, vec3_impulse_swap s t pa3 pb3 last3⟩

/-- C9: when a `SpringState` carries no `SpringBreak`
(`breaking = None`), `SpringState::impulse` returns the `Impulse`
variant (carrying the spring's computed impulse) for every timestep and
particle pair; contrapositively, `Broke` can only be returned when a
`SpringBreak` is present. -/
theorem no_break_state_returns_impulse {S : Type} [Springable S]
    (st : SpringState S) (t : ℝ) (pa pb : Particle S)
    (h : st.breaking = none) :
    (st.impulse t pa pb).1 =
      SpringResult.Impulse ((st.spring.impulse t pa pb st.lastUnitVector).1) := by
  unfold SpringState.impulse
  simp [h]

/-- C9 witness: a concrete breakless state over the scalar
instantiation indeed returns the `Impulse` variant. -/
theorem no_break_state_returns_impulse_witness :
    (SpringState.mk (none : Option ℝ) none (Spring.mk 0 0 0 0)).breaking = none ∧
    ((SpringState.mk (none : Option ℝ) none (Spring.mk 0 0 0 0)).impulse 1
      (Particle.mk 0 0 0) (Particle.mk 0 0 0)).1 =
      SpringResult.Impulse (((Spring.mk 0 0 0 0).impulse 1 (Particle.mk 0 0 0)
        (Particle.mk 0 0 0) none).1) :=
  ⟨rfl, no_break_state_returns_impulse
    (SpringState.mk (none : Option ℝ) none (Spring.mk 0 0 0 0)) 1
    (Particle.mk 0 0 0) (Particle.mk 0 0 0) rfl⟩

end

end Springy
